import Mathlib

/-!
Verification development for the MemoryGraph repository.

Shallow embedding of the long-term memory subsystem
(`src/memory/long_term.py`, `src/memory/vector_store.py`), the
session/identity registry (`src/utils/session_manager.py`), the
memory-suggestion analyzer (`src/agents/memory_agent.py`), the
orchestration workflow (`src/agents/graph_builder.py`) and the text
chunker (`src/utils/embeddings.py`).

Modelling conventions:
- Python floats are modelled as rationals (`ℚ`); the float literals of the
  source (0.2, 0.8, 0.9, ...) are taken at their decimal value.
- Python exceptions are modelled with `Except String`; the opaque external
  calls (embedding, ChromaDB query/add) are passed in as `Except`-valued
  parameters, so a `fun _ _ => .error e` argument models "every index call
  raises".
- Python strings in the tags pipeline are reasoned about through their
  character lists (`String.data`), because the join/split round-trip is a
  character-level property.
- Python truthiness (`x or default`, `if user_id and session_id`) is
  modelled explicitly: `0` / `""` / `None` are falsy.
-/

namespace MemoryGraph

/-! ## Configuration (src/config.py) -/

/-- `Config.LONG_TERM_MEMORY_THRESHOLD = 0.2` (src/config.py line 26). -/
def LONG_TERM_MEMORY_THRESHOLD : ℚ := 2/10

/-- `Config.MAX_LONG_TERM_MEMORIES = 5` (src/config.py line 27). -/
def MAX_LONG_TERM_MEMORIES : Nat := 5

/-! ## Memory record metadata (src/memory/long_term.py)

`LongTermMemoryManager.store_memory` builds a `LongTermMemory` dataclass,
turns it into a dict, deletes the `content` key, joins the tags list to a
single comma-separated string, and drops `None`-valued keys.  The cleaned
metadata dict therefore always carries the seven fields below, with
`context`/`source` simply absent when they were `None`; we model an absent
key as `Option.none`. -/

structure StoredMetadata where
  memory_type : String
  importance : ℚ
  created_at : ℚ
  last_accessed : ℚ
  access_count : Nat
  tags : String
  context : Option String
  source : Option String
deriving DecidableEq

/-- Python's two-argument `min`. -/
def pyMin (a b : ℚ) : ℚ := if a ≤ b then a else b

/-- Python's two-argument `max`. -/
def pyMax (a b : ℚ) : ℚ := if a ≤ b then b else a

/-- `max(0.0, min(1.0, importance))` (src/memory/long_term.py line 87). -/
def clamp01 (x : ℚ) : ℚ := pyMax 0 (pyMin 1 x)

/-- Character-level model of Python `','.join(tags)`
(src/memory/long_term.py line 103; `join` of `[]` is `''`, matching the
`else ''` branch). -/
def joinComma : List (List Char) → List Char
  | [] => []
  | [t] => t
  | t :: ts => t ++ ',' :: joinComma ts

/-- `','.join(tags) if metadata['tags'] else ''` lifted to `String`. -/
def joinTags (ts : List String) : String := ⟨joinComma (ts.map String.data)⟩

/-- The cleaned metadata dict built by `store_memory`
(src/memory/long_term.py lines 83-114): importance clamped,
`created_at = last_accessed = now`, `access_count = 0`, tags joined. -/
def mkStoredMetadata (memory_type : String) (imp : ℚ) (tags : List String)
    (context source : Option String) (now : ℚ) : StoredMetadata where
  memory_type := memory_type
  importance := clamp01 imp
  created_at := now
  last_accessed := now
  access_count := 0
  tags := joinTags tags
  context := context
  source := source

/-! ## Vector store search (src/memory/vector_store.py) -/

/-- One ranked hit as returned by `collection.query`: document text,
metadata and cosine distance.  The index is abstracted as the full ranked
candidate list; `query(n_results=n)` returns its first `n` elements. -/
structure QueryHit where
  id : String
  text : String
  meta : StoredMetadata
  distance : ℚ
deriving DecidableEq

/-- One element of the list built by `VectorStore.search_memories`
(src/memory/vector_store.py lines 145-151). -/
structure SearchResult where
  id : String
  text : String
  meta : StoredMetadata
  similarity : ℚ
deriving DecidableEq

/-- The result-processing loop of `search_memories`
(src/memory/vector_store.py lines 130-151): `similarity = 1 - distance`;
a hit is skipped iff a threshold is given and `similarity < threshold`. -/
def processHits (hits : List QueryHit) (threshold : Option ℚ) : List SearchResult :=
  hits.filterMap fun h =>
    let similarity := 1 - h.distance
    match threshold with
    | some t => if similarity < t then none else some ⟨h.id, h.text, h.meta, similarity⟩
    | none => some ⟨h.id, h.text, h.meta, similarity⟩

/-- `VectorStore.search_memories` over the abstract ranked candidate list:
`collection.query(n_results=n)` yields the `n` closest hits, then the
threshold filter of lines 138-151 is applied. -/
def search_memories (ranked : List QueryHit) (n_results : Nat)
    (threshold : Option ℚ) : List SearchResult :=
  processHits (ranked.take n_results) threshold

/-! ## Long-term memory manager (src/memory/long_term.py) -/

/-- One record of the list returned by
`LongTermMemoryManager.retrieve_memories` (lines 179-184): id, document
content, similarity, and the (locally updated) metadata fields. -/
structure RetrievedMemory where
  id : String
  content : String
  similarity : ℚ
  meta : StoredMetadata
deriving DecidableEq

/-- `max_results = max_results or self.max_memories`
(src/memory/long_term.py line 145): Python `or` replaces a falsy (absent or
zero) value with the configured default 5. -/
def maxResultsOr (m : Option Nat) : Nat :=
  match m with
  | some n => if n = 0 then MAX_LONG_TERM_MEMORIES else n
  | none => MAX_LONG_TERM_MEMORIES

/-- `if memory_type and metadata.get('memory_type') != memory_type: continue`
(src/memory/long_term.py line 168); an empty-string filter is falsy in
Python and disables the check. -/
def typeFilterSkip (memory_type : Option String) (meta : StoredMetadata) : Bool :=
  match memory_type with
  | some t => if t = "" then false else if meta.memory_type = t then false else true
  | none => false

/-- `if min_importance and metadata.get('importance', 0) < min_importance:
continue` (src/memory/long_term.py line 171); a zero floor is falsy and
disables the check. -/
def importanceFilterSkip (min_importance : Option ℚ) (meta : StoredMetadata) : Bool :=
  match min_importance with
  | some q => if q = 0 then false else if meta.importance < q then true else false
  | none => false

/-- Access bookkeeping applied to the metadata of every returned record
(src/memory/long_term.py lines 174-176 and 275-277): the copy in hand gets
`last_accessed = time.time()` and `access_count += 1`. -/
def bumpAccess (meta : StoredMetadata) (now : ℚ) : StoredMetadata :=
  { meta with last_accessed := now, access_count := meta.access_count + 1 }

/-- The filter-and-truncate loop of `retrieve_memories`
(src/memory/long_term.py lines 162-189): apply the two skip checks, update
the access fields of the kept copy, append, and break once `max_results`
records have been collected. -/
def filterLoop (now : ℚ) (memory_type : Option String) (min_importance : Option ℚ)
    (max_results : Nat) : List SearchResult → List RetrievedMemory → List RetrievedMemory
  | [], acc => acc
  | m :: rest, acc =>
    if typeFilterSkip memory_type m.meta || importanceFilterSkip min_importance m.meta then
      filterLoop now memory_type min_importance max_results rest acc
    else
      let acc' := acc ++ [⟨m.id, m.text, m.similarity, bumpAccess m.meta now⟩]
      if max_results ≤ acc'.length then acc'
      else filterLoop now memory_type min_importance max_results rest acc'

/-- `LongTermMemoryManager.retrieve_memories`
(src/memory/long_term.py lines 129-196), parameterised by the fallible
index search (`self.vector_store.search_memories`).  The `try` block
covers both searches and the filter loop; any raised error is caught and
the empty list returned (lines 194-196), so the whole function is total
and never raises. -/
def retrieveMemoriesE (search : Nat → Option ℚ → Except String (List SearchResult))
    (memory_type : Option String) (max_results : Option Nat)
    (min_importance : Option ℚ) (now : ℚ) : List RetrievedMemory :=
  let mr := maxResultsOr max_results
  match search (mr * 2) (some LONG_TERM_MEMORY_THRESHOLD) with
  | .error _ => []
  | .ok m1 =>
    match (if m1.isEmpty then search mr none else .ok m1) with
    | .error _ => []
    | .ok ms => filterLoop now memory_type min_importance mr ms []

/-- The non-failing index search: `search_memories` over the ranked list. -/
def indexSearch (ranked : List QueryHit) :
    Nat → Option ℚ → Except String (List SearchResult) :=
  fun n t => .ok (search_memories ranked n t)

/-- `retrieve_memories` against a live (never-raising) index. -/
def retrieveMemories (ranked : List QueryHit) (memory_type : Option String)
    (max_results : Option Nat) (min_importance : Option ℚ) (now : ℚ) :
    List RetrievedMemory :=
  retrieveMemoriesE (indexSearch ranked) memory_type max_results min_importance now

/-- The two-phase candidate list seen by the filter loop: phase (a) asks for
`2 × max_results` hits at the configured threshold, and phase (b) re-queries
for `max_results` hits with no threshold iff phase (a) came back empty
(src/memory/long_term.py lines 147-160). -/
def effectiveSearch (ranked : List QueryHit) (mr : Nat) : List SearchResult :=
  let m1 := search_memories ranked (mr * 2) (some LONG_TERM_MEMORY_THRESHOLD)
  if m1.isEmpty then search_memories ranked mr none else m1

/-- `LongTermMemoryManager.store_memory`
(src/memory/long_term.py lines 65-127), parameterised by the fallible
`vector_store.add_memory`.  The `except` clause re-raises (line 127), so a
failing index write propagates unchanged. -/
def storeMemoryE (addMemory : String → StoredMetadata → Except String String)
    (content memory_type : String) (imp : ℚ) (tags : List String)
    (context source : Option String) (now : ℚ) : Except String String :=
  addMemory content (mkStoredMetadata memory_type imp tags context source now)

/-! ## Stateful store model for round-trip reasoning -/

/-- One stored row of a ChromaDB collection: id, document, metadata. -/
structure StoreEntry where
  id : String
  text : String
  meta : StoredMetadata
deriving DecidableEq

/-- `collection.add(...)` (src/memory/vector_store.py lines 92-97). -/
def addMemoryS (st : List StoreEntry) (memory_id text : String)
    (meta : StoredMetadata) : List StoreEntry :=
  st ++ [⟨memory_id, text, meta⟩]

/-- `store_memory` acting on a concrete collection, with the generated
uuid supplied as `memory_id`; returns the new collection and the id
(src/memory/long_term.py lines 116-123). -/
def storeMemoryS (st : List StoreEntry) (memory_id content memory_type : String)
    (imp : ℚ) (tags : List String) (context source : Option String) (now : ℚ) :
    List StoreEntry × String :=
  (addMemoryS st memory_id content (mkStoredMetadata memory_type imp tags context source now),
   memory_id)

/-- Abstraction of the index query for a collection: every stored row is a
candidate, with the (embedding-determined) cosine distance supplied per id.
`retrieve_memories` performs no index write — its only store interaction is
`collection.query` — so retrieval takes the collection as a read-only
input. -/
def rankedOf (st : List StoreEntry) (dist : String → ℚ) : List QueryHit :=
  st.map (fun e => ⟨e.id, e.text, e.meta, dist e.id⟩)

/-! ## Collection namespace derivation (src/memory/vector_store.py, src/utils/session_manager.py) -/

/-- Python truthiness of an optional string argument: present and
non-empty. -/
def optTruthy (o : Option String) : Bool :=
  match o with
  | some s => s ≠ ""
  | none => false

/-- `SessionManager.generate_collection_name`
(src/utils/session_manager.py lines 226-228):
`f"user_{user_id}_session_{session_id}"`. -/
def generate_collection_name (user_id session_id : String) : String :=
  "user_" ++ user_id ++ "_session_" ++ session_id

/-- The collection-name selection of `VectorStore.__init__`
(src/memory/vector_store.py lines 32-38): both ids truthy → per-session
name; only `user_id` truthy → per-user name; otherwise the explicit
collection name or the configured default `"memory_collection"`. -/
def vectorCollectionName (user_id session_id collection_name : Option String) : String :=
  if optTruthy user_id && optTruthy session_id then
    "user_" ++ user_id.getD "" ++ "_session_" ++ session_id.getD ""
  else if optTruthy user_id then
    "user_" ++ user_id.getD "" ++ "_global"
  else
    match collection_name with
    | some s => if s = "" then "memory_collection" else s
    | none => "memory_collection"

/-- A multi-collection ChromaDB instance: rows tagged by the collection
name they were added to. -/
def storeUnderPair (db : List (String × StoreEntry)) (u s : Option String)
    (e : StoreEntry) : List (String × StoreEntry) :=
  db ++ [(vectorCollectionName u s none, e)]

/-- The rows a query issued under identity `(u, s)` can see: exactly the
rows of the collection named by that identity (ChromaDB scopes
`collection.query` to one collection). -/
def entriesFor (db : List (String × StoreEntry)) (u s : Option String) :
    List StoreEntry :=
  db.filterMap (fun p => if p.1 = vectorCollectionName u s none then some p.2 else none)

/-! ## Session/identity registry (src/utils/session_manager.py) -/

/-- The `User` dataclass (src/utils/session_manager.py lines 31-46);
the metadata dict is modelled as an association list. -/
structure UserRec where
  user_id : String
  username : String
  created_at : ℚ
  last_login : ℚ
  total_sessions : Nat
  metadata : List (String × String)
deriving DecidableEq

/-- The `ChatSession` dataclass (src/utils/session_manager.py lines 14-28). -/
structure SessionRec where
  session_id : String
  user_id : String
  created_at : ℚ
  last_activity : ℚ
  metadata : List (String × String)
deriving DecidableEq

/-- The two persisted dicts of `SessionManager`: `self.users` keyed by
user_id and `self.sessions` keyed by session_id. -/
structure SessionManagerState where
  users : List (String × UserRec)
  sessions : List (String × SessionRec)
deriving DecidableEq

/-- `key in dict` membership test. -/
def containsKey {α : Type} (l : List (String × α)) (k : String) : Bool :=
  l.any (fun p => p.1 == k)

/-- `SessionManager.delete_user` (src/utils/session_manager.py lines
234-252): unknown id → `False`, no change; otherwise delete every session
whose `user_id` field equals the id, delete the user entry, return
`True`. -/
def delete_user (st : SessionManagerState) (user_id : String) :
    SessionManagerState × Bool :=
  if containsKey st.users user_id then
    ({ users := st.users.filter (fun p => p.1 != user_id),
       sessions := st.sessions.filter (fun p => p.2.user_id != user_id) }, true)
  else (st, false)

/-! ## Memory suggestion analyzer (src/agents/memory_agent.py lines 229-276) -/

/-- Substring test helper: does `hay` start with `needle`? -/
def listStartsWith : List Char → List Char → Bool
  | _, [] => true
  | [], _ :: _ => false
  | a :: as, b :: bs => a == b && listStartsWith as bs

/-- Python `needle in hay` substring containment on character lists. -/
def listContainsSub : List Char → List Char → Bool
  | hay, needle =>
    if listStartsWith hay needle then true
    else
      match hay with
      | [] => false
      | _ :: t => listContainsSub t needle

/-- Python `needle in hay` on strings. -/
def strContainsSub (hay needle : String) : Bool :=
  listContainsSub hay.data needle.data

/-- `user_message.lower()`; the analyzer's keyword lists are ASCII, for
which `Char.toLower` agrees with Python `str.lower`. -/
def lowerStr (s : String) : String := ⟨s.data.map Char.toLower⟩

/-- src/agents/memory_agent.py line 247. -/
def preference_keywords : List String :=
  ["i like", "i prefer", "i don\x27t like", "i hate", "my favorite", "i love", "i enjoy"]

/-- src/agents/memory_agent.py line 257. -/
def personal_keywords : List String :=
  ["my name is", "i am", "i work", "i live", "my job"]

/-- src/agents/memory_agent.py line 267. -/
def fact_keywords : List String :=
  ["remember that", "important", "don\x27t forget", "note that"]

/-- A `MemorySuggestion` dict (type, content, reason, importance). -/
structure Suggestion where
  type : String
  content : String
  reason : String
  importance : ℚ
deriving DecidableEq

/-- `MemoryAgent._analyze_for_memory_storage`
(src/agents/memory_agent.py lines 229-276): three independent
keyword-membership checks against the lower-cased utterance, each appending
its own suggestion; the `response` and `relevant_memories` arguments are
unused by the heuristics. -/
def analyzeForMemoryStorage (user_message : String) : List Suggestion :=
  let lower := lowerStr user_message
  (if preference_keywords.any (fun k => strContainsSub lower k) then
    [⟨"preference", user_message, "User expressed a preference", 8/10⟩]
  else []) ++
  (if personal_keywords.any (fun k => strContainsSub lower k) then
    [⟨"fact", user_message, "User shared personal information", 9/10⟩]
  else []) ++
  (if fact_keywords.any (fun k => strContainsSub lower k) then
    [⟨"fact", user_message, "User indicated this is important to remember", 8/10⟩]
  else [])

/-! ## Orchestration workflow (src/agents/graph_builder.py)

Each LangGraph node wraps its work in `try/except`; the fallible external
operation of each node (short-term append, index retrieval, LLM call,
analyzer, per-suggestion store) is passed in as an `Except`-valued
argument.  `ShortTermMemory` (src/memory/short_term.py) is not part of the
provided sources; the short-term context placed into the final result is
therefore passed through as an opaque parameter. -/

/-- The `AgentState` TypedDict (src/agents/graph_builder.py lines 20-29),
without the unused `messages` field carrier. -/
structure AgentState where
  user_input : String
  agent_response : String
  relevant_memories : List RetrievedMemory
  memory_suggestions : List Suggestion
  should_store_memory : Bool
  stored_memory_ids : List String
  error : Option String
deriving DecidableEq

/-- The initial state built by `run` (src/agents/graph_builder.py lines
227-236). -/
def initialState (ui : String) : AgentState :=
  ⟨ui, "", [], [], false, [], none⟩

/-- The apology default of `_generate_response_node` (line 152). -/
def APOLOGY : String := "I apologize, but I encountered an error generating a response."

/-- `_process_input_node` (lines 87-103): on success clears the error
field; on failure records the message. -/
def processInputNode (addMsg : Except String Unit) (st : AgentState) : AgentState :=
  match addMsg with
  | .ok _ => { st with error := none }
  | .error e => { st with error := some e }

/-- `_retrieve_memories_node` (lines 105-125): failure degrades to an
empty memory list. -/
def retrieveMemoriesNode (retr : Except String (List RetrievedMemory))
    (st : AgentState) : AgentState :=
  match retr with
  | .ok l => { st with relevant_memories := l }
  | .error e => { st with error := some e, relevant_memories := [] }

/-- `_generate_response_node` (lines 127-153): failure degrades to the
apology string. -/
def generateResponseNode (gen : Except String String) (st : AgentState) : AgentState :=
  match gen with
  | .ok r => { st with agent_response := r }
  | .error e => { st with error := some e, agent_response := APOLOGY }

/-- `_analyze_memory_node` (lines 155-178): records the suggestions and
sets `should_store_memory = len(suggestions) > 0`; failure degrades to no
suggestions and no storage. -/
def analyzeMemoryNode (ana : Except String (List Suggestion))
    (st : AgentState) : AgentState :=
  match ana with
  | .ok l => { st with memory_suggestions := l, should_store_memory := !l.isEmpty }
  | .error e =>
    { st with error := some e, memory_suggestions := [], should_store_memory := false }

/-- `_should_store_memory` (lines 180-182). -/
def shouldStoreMemory (st : AgentState) : Bool := st.should_store_memory

/-- `_store_memory_node` (lines 184-208): stores each suggestion inside its
own inner `try/except`, collecting the ids of the successful stores and
skipping failures. -/
def storeMemoryNode (storeOne : Suggestion → Except String String)
    (st : AgentState) : AgentState :=
  { st with stored_memory_ids :=
      st.memory_suggestions.filterMap (fun s => (storeOne s).toOption) }

/-- `_finalize_node` (lines 210-213). -/
def finalizeNode (st : AgentState) : AgentState := st

/-- The state reached after the `analyze_memory` node, at which the
conditional edge is evaluated. -/
def stateBeforeBranch (addMsg : Except String Unit)
    (retr : Except String (List RetrievedMemory)) (gen : Except String String)
    (ana : Except String (List Suggestion)) (ui : String) : AgentState :=
  analyzeMemoryNode ana
    (generateResponseNode gen (retrieveMemoriesNode retr (processInputNode addMsg (initialState ui))))

/-- The compiled graph (src/agents/graph_builder.py lines 52-85): the fixed
six-stage pipeline with one conditional edge after `analyze_memory`. -/
def runGraph (addMsg : Except String Unit)
    (retr : Except String (List RetrievedMemory)) (gen : Except String String)
    (ana : Except String (List Suggestion)) (storeOne : Suggestion → Except String String)
    (ui : String) : AgentState :=
  let st := stateBeforeBranch addMsg retr gen ana ui
  finalizeNode (if shouldStoreMemory st then storeMemoryNode storeOne st else st)

/-- The turn-level result dict built by `run`
(src/agents/graph_builder.py lines 242-249). -/
structure TurnResult where
  response : String
  relevant_memories : List RetrievedMemory
  memory_suggestions : List Suggestion
  stored_memory_ids : List String
  error : Option String
  short_term_context : List (String × String)
deriving DecidableEq

/-- `MemoryAgentWorkflow.run` (lines 215-260): run the graph on the initial
state and package the six result fields. -/
def runWorkflow (addMsg : Except String Unit)
    (retr : Except String (List RetrievedMemory)) (gen : Except String String)
    (ana : Except String (List Suggestion)) (storeOne : Suggestion → Except String String)
    (ui : String) (ctx : List (String × String)) : TurnResult :=
  let fs := runGraph addMsg retr gen ana storeOne ui
  ⟨fs.agent_response, fs.relevant_memories, fs.memory_suggestions,
   fs.stored_memory_ids, fs.error, ctx⟩

/-! ## Text chunking (src/utils/embeddings.py lines 94-134)

Python indices are modelled as `Int` (they go negative when the overlap
exceeds the step), slicing with Python's negative-index-and-clamp
semantics, and the `while` loop with an explicit fuel parameter so the
model is total while still letting non-termination of the source be
expressed (`none` for every fuel). -/

/-- Python slice-bound conversion: a negative bound counts from the end
(clamped at 0), a non-negative one is clamped at the length. -/
def pyIdx (n : Nat) (i : Int) : Nat :=
  if i < 0 then (i + n).toNat else min i.toNat n

/-- Python `l[a:b]`. -/
def pySlice (l : List Char) (a b : Int) : List Char :=
  (l.take (pyIdx l.length b)).drop (pyIdx l.length a)

/-- Python `chunk.rfind(' ')`: index of the last space, `-1` if none. -/
def pyRFindSpace : List Char → Int
  | [] => -1
  | c :: rest =>
    let r := pyRFindSpace rest
    if r ≥ 0 then r + 1
    else if c = ' ' then 0 else -1

/-- Python `str.strip()` whitespace class (ASCII part). -/
def isPySpace (c : Char) : Bool :=
  c == ' ' || c == '\t' || c == '\n' || c == '\r' || c.val == 11 || c.val == 12

/-- Python `chunk.strip()`. -/
def pyStrip (l : List Char) : List Char :=
  ((l.dropWhile isPySpace).reverse.dropWhile isPySpace).reverse

/-- `Config.CHUNK_SIZE = 1000` (src/config.py line 35). -/
def CHUNK_SIZE : Int := 1000

/-- `Config.CHUNK_OVERLAP = 200` (src/config.py line 36). -/
def CHUNK_OVERLAP : Int := 200

/-- One iteration of the chunking loop body
(src/utils/embeddings.py lines 116-131): slice out `text[start:start+cs]`,
optionally re-break at the last space when it lies past 80% of the chunk
(`last_space > chunk_size * 0.8`, modelled exactly as `5·ls > 4·cs`),
append the stripped chunk, and step `start` to `end - overlap`. -/
def chunkStep (text : List Char) (cs ov : Int) (start : Int) : List Char × Int :=
  let n : Int := text.length
  let end0 := start + cs
  let chunk0 := pySlice text start end0
  let p :=
    if end0 < n then
      let ls := pyRFindSpace chunk0
      if 5 * ls > 4 * cs then (pySlice chunk0 0 ls, start + ls) else (chunk0, end0)
    else (chunk0, end0)
  (pyStrip p.1, p.2 - ov)

/-- The `while start < len(text)` loop of `chunk_text`, with fuel.  The
trailing `if start >= len(text): break` of the source is equivalent to the
loop-head re-check because nothing follows it in the body. -/
def chunkLoop (text : List Char) (cs ov : Int) :
    Nat → Int → List (List Char) → Option (List (List Char))
  | fuel, start, acc =>
    if start < (text.length : Int) then
      match fuel with
      | 0 => none
      | fuel + 1 =>
        let p := chunkStep text cs ov start
        chunkLoop text cs ov fuel p.2 (acc ++ [p.1])
    else some acc

/-- `EmbeddingService.chunk_text` (src/utils/embeddings.py lines 94-134):
`chunk_size or Config.CHUNK_SIZE` and `overlap or Config.CHUNK_OVERLAP`
replace falsy (zero) arguments by the configured defaults; a text no longer
than the chunk size is returned whole. -/
def chunk_text (fuel : Nat) (text : List Char) (chunk_size overlap : Int) :
    Option (List (List Char)) :=
  let cs := if chunk_size = 0 then CHUNK_SIZE else chunk_size
  let ov := if overlap = 0 then CHUNK_OVERLAP else overlap
  if (text.length : Int) ≤ cs then some [text]
  else chunkLoop text cs ov fuel 0 []

/-- `chunk_text` diverges at an input: the loop exhausts every fuel
bound. -/
def chunkTextDiverges (text : List Char) (chunk_size overlap : Int) : Prop :=
  ∀ fuel, chunk_text fuel text chunk_size overlap = none

/-- The similarity-ordered identity of a retrieved record (id, content,
similarity) — the part untouched by the access-field bump. -/
def rmKey (r : RetrievedMemory) : String × String × ℚ := (r.id, r.content, r.similarity)

/-- The similarity-ordered identity of a search candidate. -/
def srKey (m : SearchResult) : String × String × ℚ := (m.id, m.text, m.similarity)

/-- Record used only by the C5 counterexample: one stored memory with
`access_count = 0`. -/
def cexStore : List StoreEntry := (storeMemoryS [] "m1" "hello" "fact" (1/2) [] none none 0).1

/-! ## Theorems -/

/-- Claim C3: if every Vector Index call raises, `retrieve_memories`
returns the empty list for every input — and, being modelled as a total
function into `List`, never raises — while `store_memory` propagates the
failure to its caller unchanged. -/
theorem index_failure_degradation (e : String) (memory_type : Option String)
    (max_results : Option Nat) (min_importance : Option ℚ) (now : ℚ)
    (content mtype : String) (imp : ℚ) (tags : List String)
    (context source : Option String) (t : ℚ) :
    retrieveMemoriesE (fun _ _ => .error e) memory_type max_results min_importance now = [] ∧
    storeMemoryE (fun _ _ => .error e) content mtype imp tags context source t = .error e :=
  ⟨rfl, rfl⟩

/-- Claim C8: the suggestion analyzer is a pure function of the utterance,
and for every utterance whose lower-casing contains both a preference
marker and a personal-fact marker it yields at least two suggestions, one
of type `preference` with importance 0.8 and one of type `fact` with
importance 0.9 — the category checks fire independently, with no
deduplication. -/
theorem analyzer_categories_fire (msg : String)
    (hp : preference_keywords.any (fun k => strContainsSub (lowerStr msg) k) = true)
    (hf : personal_keywords.any (fun k => strContainsSub (lowerStr msg) k) = true) :
    2 ≤ (analyzeForMemoryStorage msg).length ∧
    (∃ s ∈ analyzeForMemoryStorage msg, s.type = "preference" ∧ s.importance = 8/10) ∧
    (∃ s ∈ analyzeForMemoryStorage msg, s.type = "fact" ∧ s.importance = 9/10) := by
  unfold analyzeForMemoryStorage
  simp only [hp, hf, if_true]
  refine ⟨?_, ?_, ?_⟩
  · cases fact_keywords.any (fun k => strContainsSub (lowerStr msg) k) <;> simp
  · exact ⟨⟨"preference", msg, "User expressed a preference", 8/10⟩, by simp, rfl, rfl⟩
  · exact ⟨⟨"fact", msg, "User shared personal information", 9/10⟩, by simp, rfl, rfl⟩

/-- Witness for C8 at the spec's own example utterance. -/
theorem analyzer_categories_fire_witness :
    2 ≤ (analyzeForMemoryStorage "I love pizza and my name is Sam").length ∧
    (∃ s ∈ analyzeForMemoryStorage "I love pizza and my name is Sam",
      s.type = "preference" ∧ s.importance = 8/10) ∧
    (∃ s ∈ analyzeForMemoryStorage "I love pizza and my name is Sam",
      s.type = "fact" ∧ s.importance = 9/10) :=
  analyzer_categories_fire "I love pizza and my name is Sam" (by decide) (by decide)

/-- Counterexample to claim C2 as stated: the two distinct identity pairs
`("a_session_b", "c")` and `("a", "b_session_c")` (all four identifiers
present and non-empty) derive the same collection name, and a memory stored
under the first pair is returned verbatim by a lookup under the second. -/
theorem collection_name_collision_cex :
    (("a_session_b", "c") : String × String) ≠ ("a", "b_session_c") ∧
    generate_collection_name "a_session_b" "c" = generate_collection_name "a" "b_session_c" ∧
    vectorCollectionName (some "a_session_b") (some "c") none =
      vectorCollectionName (some "a") (some "b_session_c") none ∧
    entriesFor (storeUnderPair [] (some "a_session_b") (some "c")
        ⟨"m1", "hi", ⟨"fact", 1, 0, 0, 0, "", none, none⟩⟩)
      (some "a") (some "b_session_c") =
      [⟨"m1", "hi", ⟨"fact", 1, 0, 0, 0, "", none, none⟩⟩] := by
  refine ⟨?_, ?_, ?_, ?_⟩ <;> decide

/-- Counterexample to claim C5 as stated: `retrieve_memories` performs no
index write (its only store interaction is `collection.query`), so after a
store and two retrievals that both return the record, the stored
`access_count` is still 0 and both retrievals report `access_count = 1` —
the count does not persist and does not reflect the number of retrieval
hits. -/
theorem access_count_not_persisted_cex :
    (retrieveMemories (rankedOf cexStore (fun _ => 1/2)) none none none 10).map
      (fun r => r.meta.access_count) = [1] ∧
    (retrieveMemories (rankedOf cexStore (fun _ => 1/2)) none none none 20).map
      (fun r => r.meta.access_count) = [1] ∧
    cexStore.map (fun e => e.meta.access_count) = [0] := by
  refine ⟨?_, ?_, ?_⟩ <;>
    norm_num [retrieveMemories, retrieveMemoriesE, indexSearch, search_memories, processHits,
      cexStore, storeMemoryS, addMemoryS, mkStoredMetadata, rankedOf, maxResultsOr,
      MAX_LONG_TERM_MEMORIES, LONG_TERM_MEMORY_THRESHOLD, filterLoop, typeFilterSkip,
      importanceFilterSkip, bumpAccess, clamp01, pyMin, pyMax, joinTags, joinComma,
      List.filterMap_cons, List.filterMap_nil, List.isEmpty]

/-- Claim C7: `delete_user` on a present user id returns `True`, removes
the user record, removes exactly the sessions referencing that user id
(every other user and session survives), and afterwards no session
references the id; on an absent id it returns `False` and changes
nothing. -/
theorem delete_user_cascade (st : SessionManagerState) (uid : String) :
    (containsKey st.users uid = true →
      (delete_user st uid).2 = true ∧
      (∀ p ∈ (delete_user st uid).1.sessions, p.2.user_id ≠ uid) ∧
      containsKey (delete_user st uid).1.users uid = false ∧
      (∀ p ∈ st.sessions, p.2.user_id ≠ uid → p ∈ (delete_user st uid).1.sessions) ∧
      (∀ p ∈ st.users, p.1 ≠ uid → p ∈ (delete_user st uid).1.users)) ∧
    (containsKey st.users uid = false → delete_user st uid = (st, false)) := by
  constructor
  · intro h
    simp only [delete_user, h, if_true]
    refine ⟨by trivial, ?_, ?_, ?_, ?_⟩
    · intro p hp
      have := (List.mem_filter.mp hp).2
      simpa [bne_iff_ne] using this
    · simp [containsKey, List.any_eq_true, List.mem_filter]
    · intro p hp hne
      exact List.mem_filter.mpr ⟨hp, by simpa [bne_iff_ne] using hne⟩
    · intro p hp hne
      exact List.mem_filter.mpr ⟨hp, by simpa [bne_iff_ne] using hne⟩
  · intro h
    simp [delete_user, h]

/-- Witness for C7: a registry with one user and two sessions referencing
it; after `delete_user` no session remains and the call reports `True`. -/
theorem delete_user_cascade_witness :
    (delete_user ⟨[("u1", ⟨"u1", "alice", 0, 0, 2, []⟩)],
        [("s1", ⟨"s1", "u1", 0, 0, []⟩), ("s2", ⟨"s2", "u1", 0, 0, []⟩)]⟩ "u1").2 = true ∧
    (∀ p ∈ (delete_user ⟨[("u1", ⟨"u1", "alice", 0, 0, 2, []⟩)],
        [("s1", ⟨"s1", "u1", 0, 0, []⟩), ("s2", ⟨"s2", "u1", 0, 0, []⟩)]⟩ "u1").1.sessions,
      p.2.user_id ≠ "u1") :=
  let thm := delete_user_cascade ⟨[("u1", ⟨"u1", "alice", 0, 0, 2, []⟩)],
    [("s1", ⟨"s1", "u1", 0, 0, []⟩), ("s2", ⟨"s2", "u1", 0, 0, []⟩)]⟩ "u1"
  have h := thm.1 (by decide)
  ⟨h.1, h.2.1⟩

/-- Claim C9: a run of the orchestration workflow always completes and
returns a well-formed `TurnResult`; each stage failure is captured into
the error field while that stage's own output degrades to its default
(empty list / apology string): any stage that raises leaves the returned
error field set (only the first node resets it, on its own success, before
any other stage has run), the error field is `none` iff no stage fails,
and the `store_memory` branch is taken iff the analyzer produced at least
one suggestion. -/
theorem workflow_always_finalizes (addMsg : Except String Unit)
    (retr : Except String (List RetrievedMemory)) (gen : Except String String)
    (ana : Except String (List Suggestion)) (storeOne : Suggestion → Except String String)
    (ui : String) (ctx : List (String × String)) :
    (runWorkflow addMsg retr gen ana storeOne ui ctx).short_term_context = ctx ∧
    (∀ e, retr = .error e →
      (runWorkflow addMsg retr gen ana storeOne ui ctx).relevant_memories = []) ∧
    (∀ e, gen = .error e →
      (runWorkflow addMsg retr gen ana storeOne ui ctx).response = APOLOGY) ∧
    (∀ e, ana = .error e →
      (runWorkflow addMsg retr gen ana storeOne ui ctx).memory_suggestions = [] ∧
      (runWorkflow addMsg retr gen ana storeOne ui ctx).stored_memory_ids = []) ∧
    (∀ l, ana = .ok l →
      (runWorkflow addMsg retr gen ana storeOne ui ctx).memory_suggestions = l ∧
      (runWorkflow addMsg retr gen ana storeOne ui ctx).stored_memory_ids =
        (if l.isEmpty then [] else l.filterMap (fun s => (storeOne s).toOption))) ∧
    (shouldStoreMemory (stateBeforeBranch addMsg retr gen ana ui) =
      !(stateBeforeBranch addMsg retr gen ana ui).memory_suggestions.isEmpty) ∧
    ((∃ u, addMsg = .ok u) → (∃ l, retr = .ok l) → (∃ r, gen = .ok r) →
      (∃ l, ana = .ok l) →
      (runWorkflow addMsg retr gen ana storeOne ui ctx).error = none) ∧
    (∀ e, addMsg = .error e →
      (runWorkflow addMsg retr gen ana storeOne ui ctx).error ≠ none) ∧
    (∀ e, retr = .error e →
      (runWorkflow addMsg retr gen ana storeOne ui ctx).error ≠ none) ∧
    (∀ e, gen = .error e →
      (runWorkflow addMsg retr gen ana storeOne ui ctx).error ≠ none) ∧
    (∀ e, ana = .error e →
      (runWorkflow addMsg retr gen ana storeOne ui ctx).error = some e) := by
  refine ⟨rfl, ?_, ?_, ?_, ?_, ?_, ?_, ?_, ?_, ?_, ?_⟩
  · intro e he
    subst he
    cases addMsg <;> cases gen <;> cases ana <;>
      simp [runWorkflow, runGraph, stateBeforeBranch, processInputNode,
        retrieveMemoriesNode, generateResponseNode, analyzeMemoryNode, storeMemoryNode,
        finalizeNode, shouldStoreMemory, initialState, apply_ite]
  · intro e he
    subst he
    cases addMsg <;> cases retr <;> cases ana <;>
      simp [runWorkflow, runGraph, stateBeforeBranch, processInputNode,
        retrieveMemoriesNode, generateResponseNode, analyzeMemoryNode, storeMemoryNode,
        finalizeNode, shouldStoreMemory, initialState, apply_ite]
  · intro e he
    subst he
    cases addMsg <;> cases retr <;> cases gen <;>
      simp [runWorkflow, runGraph, stateBeforeBranch, processInputNode,
        retrieveMemoriesNode, generateResponseNode, analyzeMemoryNode, storeMemoryNode,
        finalizeNode, shouldStoreMemory, initialState, apply_ite]
  · intro l hl
    subst hl
    cases addMsg <;> cases retr <;> cases gen <;> rcases l with _ | ⟨s, ss⟩ <;>
      simp [runWorkflow, runGraph, stateBeforeBranch, processInputNode,
        retrieveMemoriesNode, generateResponseNode, analyzeMemoryNode, storeMemoryNode,
        finalizeNode, shouldStoreMemory, initialState]
  · cases addMsg <;> cases retr <;> cases gen <;> cases ana <;>
      simp [runWorkflow, runGraph, stateBeforeBranch, processInputNode,
        retrieveMemoriesNode, generateResponseNode, analyzeMemoryNode, storeMemoryNode,
        finalizeNode, shouldStoreMemory, initialState]
  · rintro ⟨u, hu⟩ ⟨l1, h1⟩ ⟨r, h2⟩ ⟨l2, h3⟩
    subst hu h1 h2 h3
    simp [runWorkflow, runGraph, stateBeforeBranch, processInputNode,
      retrieveMemoriesNode, generateResponseNode, analyzeMemoryNode, storeMemoryNode,
      finalizeNode, shouldStoreMemory, initialState, apply_ite]
  · intro e he
    subst he
    cases retr <;> cases gen <;> cases ana <;>
      simp [runWorkflow, runGraph, stateBeforeBranch, processInputNode,
        retrieveMemoriesNode, generateResponseNode, analyzeMemoryNode, storeMemoryNode,
        finalizeNode, shouldStoreMemory, initialState, apply_ite]
  · intro e he
    subst he
    cases addMsg <;> cases gen <;> cases ana <;>
      simp [runWorkflow, runGraph, stateBeforeBranch, processInputNode,
        retrieveMemoriesNode, generateResponseNode, analyzeMemoryNode, storeMemoryNode,
        finalizeNode, shouldStoreMemory, initialState, apply_ite]
  · intro e he
    subst he
    cases addMsg <;> cases retr <;> cases ana <;>
      simp [runWorkflow, runGraph, stateBeforeBranch, processInputNode,
        retrieveMemoriesNode, generateResponseNode, analyzeMemoryNode, storeMemoryNode,
        finalizeNode, shouldStoreMemory, initialState, apply_ite]
  · intro e he
    subst he
    cases addMsg <;> cases retr <;> cases gen <;>
      simp [runWorkflow, runGraph, stateBeforeBranch, processInputNode,
        retrieveMemoriesNode, generateResponseNode, analyzeMemoryNode, storeMemoryNode,
        finalizeNode, shouldStoreMemory, initialState, apply_ite]

/-- Witness for C9 at a concrete turn whose retrieval stage fails: the
returned result still carries the degraded empty memory list, and its
error field is set. -/
theorem workflow_always_finalizes_witness :
    (runWorkflow (.ok ()) (.error "index down") (.ok "hi") (.ok [])
        (fun _ => .ok "m1") "question" []).relevant_memories = [] ∧
    (runWorkflow (.ok ()) (.error "index down") (.ok "hi") (.ok [])
        (fun _ => .ok "m1") "question" []).error ≠ none :=
  ⟨(workflow_always_finalizes (.ok ()) (.error "index down") (.ok "hi") (.ok [])
      (fun _ => .ok "m1") "question" []).2.1 "index down" rfl,
   (workflow_always_finalizes (.ok ()) (.error "index down") (.ok "hi") (.ok [])
      (fun _ => .ok "m1") "question" []).2.2.2.2.2.2.2.2.1 "index down" rfl⟩

/-- Strings with equal character data are equal. -/
theorem string_data_inj {a b : String} (h : a.data = b.data) : a = b := by
  cases a; cases b; exact congrArg String.mk h

/-- The collection-name template is injective on pairs whose user ids have
equal length (registry-generated ids `user_` + 8 hex characters all have
length 13). -/
theorem collection_name_inj_of_len (u1 s1 u2 s2 : String)
    (hlen : u1.length = u2.length)
    (h : generate_collection_name u1 s1 = generate_collection_name u2 s2) :
    u1 = u2 ∧ s1 = s2 := by
  have hd := congrArg String.data h
  simp only [generate_collection_name, String.data_append, List.append_assoc] at hd
  have h1 := List.append_cancel_left hd
  obtain ⟨h2, h3⟩ := List.append_inj h1 hlen
  exact ⟨string_data_inj h2, string_data_inj (List.append_cancel_left h3)⟩

/-- Amended claim C2: for identity pairs with all four identifiers present
and the two user ids of equal length (as all registry-generated ids are),
distinct pairs derive distinct collection names, and a memory stored under
one pair is invisible to lookups under the other. -/
theorem namespace_isolation_eqlen (u1 s1 u2 s2 : String) (hu1 : u1 ≠ "")
    (hs1 : s1 ≠ "") (hu2 : u2 ≠ "") (hs2 : s2 ≠ "")
    (hlen : u1.length = u2.length) (hne : (u1, s1) ≠ (u2, s2))
    (db : List (String × StoreEntry)) (e : StoreEntry) :
    vectorCollectionName (some u1) (some s1) none ≠
      vectorCollectionName (some u2) (some s2) none ∧
    entriesFor (storeUnderPair db (some u1) (some s1) e) (some u2) (some s2) =
      entriesFor db (some u2) (some s2) := by
  have hname1 : vectorCollectionName (some u1) (some s1) none =
      generate_collection_name u1 s1 := by
    simp [vectorCollectionName, optTruthy, hu1, hs1, generate_collection_name]
  have hname2 : vectorCollectionName (some u2) (some s2) none =
      generate_collection_name u2 s2 := by
    simp [vectorCollectionName, optTruthy, hu2, hs2, generate_collection_name]
  have hdiff : vectorCollectionName (some u1) (some s1) none ≠
      vectorCollectionName (some u2) (some s2) none := by
    intro h
    rw [hname1, hname2] at h
    obtain ⟨h1, h2⟩ := collection_name_inj_of_len u1 s1 u2 s2 hlen h
    exact hne (by rw [h1, h2])
  refine ⟨hdiff, ?_⟩
  simp only [entriesFor, storeUnderPair, List.filterMap_append, List.filterMap_cons,
    List.filterMap_nil]
  rw [if_neg hdiff]
  simp

/-- Witness for the amended C2 at two registry-format identity pairs. -/
theorem namespace_isolation_eqlen_witness :
    vectorCollectionName (some "user_aaaaaaaa") (some "session_000000000001") none ≠
      vectorCollectionName (some "user_bbbbbbbb") (some "session_000000000002") none ∧
    entriesFor (storeUnderPair [] (some "user_aaaaaaaa") (some "session_000000000001")
        ⟨"m1", "hi", ⟨"fact", 1, 0, 0, 0, "", none, none⟩⟩)
      (some "user_bbbbbbbb") (some "session_000000000002") =
      entriesFor [] (some "user_bbbbbbbb") (some "session_000000000002") :=
  namespace_isolation_eqlen "user_aaaaaaaa" "session_000000000001"
    "user_bbbbbbbb" "session_000000000002" (by decide) (by decide) (by decide)
    (by decide) (by decide) (by decide) []
    ⟨"m1", "hi", ⟨"fact", 1, 0, 0, 0, "", none, none⟩⟩

/-- Against a live index, `retrieve_memories` is the filter loop run on the
two-phase candidate list. -/
theorem retrieveMemories_eq (ranked : List QueryHit) (mt : Option String)
    (mr : Option Nat) (mi : Option ℚ) (now : ℚ) :
    retrieveMemories ranked mt mr mi now =
      filterLoop now mt mi (maxResultsOr mr) (effectiveSearch ranked (maxResultsOr mr)) [] := by
  unfold retrieveMemories retrieveMemoriesE indexSearch effectiveSearch
  by_cases h :
      (search_memories ranked (maxResultsOr mr * 2) (some LONG_TERM_MEMORY_THRESHOLD)).isEmpty
  · simp [h]
  · simp [h]

/-- Every record produced by the filter loop that is not already in the
accumulator comes from a non-skipped candidate, with the access fields of
the copy bumped. -/
theorem filterLoop_mem (now : ℚ) (mt : Option String) (mi : Option ℚ) (mr : Nat) :
    ∀ (ms : List SearchResult) (acc : List RetrievedMemory) (r : RetrievedMemory),
      r ∈ filterLoop now mt mi mr ms acc →
      r ∈ acc ∨ ∃ m ∈ ms,
        (typeFilterSkip mt m.meta || importanceFilterSkip mi m.meta) = false ∧
        r = ⟨m.id, m.text, m.similarity, bumpAccess m.meta now⟩ := by
  intro ms
  induction ms with
  | nil =>
    intro acc r h
    exact Or.inl h
  | cons m rest ih =>
    intro acc r h
    by_cases hskip : (typeFilterSkip mt m.meta || importanceFilterSkip mi m.meta) = true
    · rw [filterLoop, if_pos hskip] at h
      rcases ih _ _ h with h' | ⟨m', hm', hsk, hr⟩
      · exact Or.inl h'
      · exact Or.inr ⟨m', List.mem_cons_of_mem _ hm', hsk, hr⟩
    · have hskf : (typeFilterSkip mt m.meta || importanceFilterSkip mi m.meta) = false :=
        Bool.not_eq_true _ ▸ hskip
      rw [filterLoop, if_neg hskip] at h
      simp only at h
      by_cases hlen :
          mr ≤ (acc ++
            [(⟨m.id, m.text, m.similarity, bumpAccess m.meta now⟩ : RetrievedMemory)]).length
      · rw [if_pos hlen] at h
        rcases List.mem_append.mp h with h' | h'
        · exact Or.inl h'
        · exact Or.inr ⟨m, List.mem_cons_self m rest, hskf, by simpa using h'⟩
      · rw [if_neg hlen] at h
        rcases ih _ _ h with h' | ⟨m', hm', hsk, hr⟩
        · rcases List.mem_append.mp h' with h'' | h''
          · exact Or.inl h''
          · exact Or.inr ⟨m, List.mem_cons_self m rest, hskf, by simpa using h''⟩
        · exact Or.inr ⟨m', List.mem_cons_of_mem _ hm', hsk, hr⟩

/-- Every element of a `search_memories` result carries the id, text and
metadata of some ranked candidate, unchanged. -/
theorem processHits_mem (hits : List QueryHit) (th : Option ℚ) (m : SearchResult)
    (hm : m ∈ processHits hits th) :
    ∃ q ∈ hits, m.id = q.id ∧ m.text = q.text ∧ m.meta = q.meta := by
  unfold processHits at hm
  obtain ⟨q, hq, hf⟩ := List.mem_filterMap.mp hm
  refine ⟨q, hq, ?_⟩
  cases th with
  | none =>
    simp only at hf
    obtain rfl := Option.some.inj hf
    exact ⟨rfl, rfl, rfl⟩
  | some t =>
    simp only at hf
    by_cases hc : 1 - q.distance < t
    · rw [if_pos hc] at hf
      exact absurd hf (by simp)
    · rw [if_neg hc] at hf
      obtain rfl := Option.some.inj hf
      exact ⟨rfl, rfl, rfl⟩

/-- Every candidate the two-phase search hands to the filter loop carries
the id, text and metadata of some ranked hit, unchanged. -/
theorem effectiveSearch_mem (ranked : List QueryHit) (mr : Nat) (m : SearchResult)
    (hm : m ∈ effectiveSearch ranked mr) :
    ∃ q ∈ ranked, m.id = q.id ∧ m.text = q.text ∧ m.meta = q.meta := by
  unfold effectiveSearch at hm
  by_cases h :
      (search_memories ranked (mr * 2) (some LONG_TERM_MEMORY_THRESHOLD)).isEmpty
  · rw [if_pos h] at hm
    obtain ⟨q, hq, hrest⟩ := processHits_mem _ _ _ hm
    exact ⟨q, List.take_subset _ _ hq, hrest⟩
  · rw [if_neg h] at hm
    obtain ⟨q, hq, hrest⟩ := processHits_mem _ _ _ hm
    exact ⟨q, List.take_subset _ _ hq, hrest⟩

/-- Amended claim C5: every record returned by `retrieve_memories` is a
copy whose `last_accessed` is refreshed to the retrieval time and whose
`access_count` is one more than the count stored in the index for the hit
it came from; the stored record itself is untouched (retrieval performs no
index write, so the bump is not persisted). -/
theorem retrieve_bumps_returned_copy (ranked : List QueryHit) (mt : Option String)
    (mr : Option Nat) (mi : Option ℚ) (now : ℚ) :
    ∀ r ∈ retrieveMemories ranked mt mr mi now,
      r.meta.last_accessed = now ∧
      ∃ q ∈ ranked, r.id = q.id ∧ r.meta.access_count = q.meta.access_count + 1 := by
  intro r hr
  rw [retrieveMemories_eq] at hr
  rcases filterLoop_mem now mt mi (maxResultsOr mr) _ [] r hr with h | ⟨m, hm, _, rfl⟩
  · exact absurd h (List.not_mem_nil r)
  · obtain ⟨q, hq, hid, _, hmeta⟩ := effectiveSearch_mem ranked (maxResultsOr mr) m hm
    exact ⟨rfl, q, hq, hid, by simp [bumpAccess, hmeta]⟩

/-- Witness for the amended C5: a single stored hit retrieved at time 5
comes back with `last_accessed = 5` and `access_count` bumped from 0 to 1. -/
theorem retrieve_bumps_returned_copy_witness :
    (⟨"m1", "hello", 1 - 0,
        bumpAccess ⟨"fact", 1, 0, 0, 0, "", none, none⟩ 5⟩ : RetrievedMemory).meta.last_accessed
        = 5 ∧
    ∃ q ∈ [(⟨"m1", "hello", ⟨"fact", 1, 0, 0, 0, "", none, none⟩, 0⟩ : QueryHit)],
      (⟨"m1", "hello", 1 - 0,
        bumpAccess ⟨"fact", 1, 0, 0, 0, "", none, none⟩ 5⟩ : RetrievedMemory).id = q.id ∧
      (⟨"m1", "hello", 1 - 0,
        bumpAccess ⟨"fact", 1, 0, 0, 0, "", none, none⟩ 5⟩ : RetrievedMemory).meta.access_count
        = q.meta.access_count + 1 :=
  retrieve_bumps_returned_copy
    [⟨"m1", "hello", ⟨"fact", 1, 0, 0, 0, "", none, none⟩, 0⟩] none none none 5
    ⟨"m1", "hello", 1 - 0, bumpAccess ⟨"fact", 1, 0, 0, 0, "", none, none⟩ 5⟩
    (by norm_num [retrieveMemories, retrieveMemoriesE, indexSearch, search_memories,
      processHits, maxResultsOr, MAX_LONG_TERM_MEMORIES, LONG_TERM_MEMORY_THRESHOLD,
      filterLoop, typeFilterSkip, importanceFilterSkip, List.filterMap_cons,
      List.filterMap_nil, List.isEmpty])

/-- The effective result cap is always at least one (a zero or absent
`max_results` falls back to the configured default 5). -/
theorem one_le_maxResultsOr (m : Option Nat) : 1 ≤ maxResultsOr m := by
  cases m with
  | none => norm_num [maxResultsOr, MAX_LONG_TERM_MEMORIES]
  | some n =>
    cases n with
    | zero => norm_num [maxResultsOr, MAX_LONG_TERM_MEMORIES]
    | succ k => simp [maxResultsOr]

/-- The filter loop only ever appends to its accumulator. -/
theorem filterLoop_extends (now : ℚ) (mt : Option String) (mi : Option ℚ) (mr : Nat) :
    ∀ (ms : List SearchResult) (acc : List RetrievedMemory),
      ∃ t, filterLoop now mt mi mr ms acc = acc ++ t := by
  intro ms
  induction ms with
  | nil =>
    intro acc
    exact ⟨[], by simp [filterLoop]⟩
  | cons m rest ih =>
    intro acc
    by_cases hskip : (typeFilterSkip mt m.meta || importanceFilterSkip mi m.meta) = true
    · rw [filterLoop, if_pos hskip]
      exact ih acc
    · rw [filterLoop, if_neg hskip]
      simp only
      by_cases hlen :
          mr ≤ (acc ++
            [(⟨m.id, m.text, m.similarity, bumpAccess m.meta now⟩ : RetrievedMemory)]).length
      · rw [if_pos hlen]
        exact ⟨[⟨m.id, m.text, m.similarity, bumpAccess m.meta now⟩], rfl⟩
      · rw [if_neg hlen]
        obtain ⟨t, ht⟩ :=
          ih (acc ++ [⟨m.id, m.text, m.similarity, bumpAccess m.meta now⟩])
        exact ⟨[⟨m.id, m.text, m.similarity, bumpAccess m.meta now⟩] ++ t,
          by rw [ht, List.append_assoc]⟩

/-- With no type filter and no importance floor, the filter loop keeps its
first candidate, so a non-empty candidate list yields a non-empty result. -/
theorem filterLoop_nonempty_nofilter (now : ℚ) (mr : Nat) (m : SearchResult)
    (rest : List SearchResult) :
    filterLoop now none none mr (m :: rest) [] ≠ [] := by
  rw [filterLoop]
  rw [if_neg (by simp [typeFilterSkip, importanceFilterSkip])]
  simp only
  by_cases hlen :
      mr ≤ (([] : List RetrievedMemory) ++
        [(⟨m.id, m.text, m.similarity, bumpAccess m.meta now⟩ : RetrievedMemory)]).length
  · rw [if_pos hlen]
    simp
  · rw [if_neg hlen]
    obtain ⟨t, ht⟩ := filterLoop_extends now none none mr rest
      ([] ++ [⟨m.id, m.text, m.similarity, bumpAccess m.meta now⟩])
    rw [ht]
    simp

/-- Claim C1: whenever the index holds at least one memory (so the ranked
candidate list is non-empty and the unthresholded fallback query has a
hit) and neither a memory-type filter nor an importance floor is given,
`retrieve_memories` returns a non-empty list: phase (a) queries at the
configured threshold, and iff it comes back empty, phase (b) re-queries
with no threshold. -/
theorem retrieve_fallback_nonempty (ranked : List QueryHit) (hr : ranked ≠ [])
    (mr : Option Nat) (now : ℚ) :
    retrieveMemories ranked none mr none now ≠ [] := by
  rw [retrieveMemories_eq]
  have hne : effectiveSearch ranked (maxResultsOr mr) ≠ [] := by
    unfold effectiveSearch
    by_cases h :
        (search_memories ranked (maxResultsOr mr * 2) (some LONG_TERM_MEMORY_THRESHOLD)).isEmpty
    · rw [if_pos h]
      obtain ⟨q, tl, hq⟩ : ∃ q tl, ranked.take (maxResultsOr mr) = q :: tl := by
        have h1 := one_le_maxResultsOr mr
        cases ranked with
        | nil => exact absurd rfl hr
        | cons a as =>
          obtain ⟨k, hk⟩ : ∃ k, maxResultsOr mr = k + 1 :=
            ⟨maxResultsOr mr - 1, by omega⟩
          rw [hk]
          exact ⟨a, as.take k, by simp⟩
      unfold search_memories processHits
      rw [hq]
      simp
    · rw [if_neg h]
      simpa [List.isEmpty_iff] using h
  obtain ⟨m, ms', hms⟩ := List.exists_cons_of_ne_nil hne
  rw [hms]
  exact filterLoop_nonempty_nofilter now (maxResultsOr mr) m ms'

/-- Witness for C1: one stored memory, no filters — retrieval is
non-empty. -/
theorem retrieve_fallback_nonempty_witness :
    retrieveMemories [⟨"m1", "hello", ⟨"fact", 1, 0, 0, 0, "", none, none⟩, 0⟩]
      none none none 0 ≠ [] :=
  retrieve_fallback_nonempty
    [⟨"m1", "hello", ⟨"fact", 1, 0, 0, 0, "", none, none⟩, 0⟩] (by simp) none 0

/-- Entered below the cap, the filter loop never returns more than
`max_results` records (it breaks as soon as the cap is reached). -/
theorem filterLoop_length (now : ℚ) (mt : Option String) (mi : Option ℚ) (mr : Nat) :
    ∀ (ms : List SearchResult) (acc : List RetrievedMemory), acc.length < mr →
      (filterLoop now mt mi mr ms acc).length ≤ mr := by
  intro ms
  induction ms with
  | nil =>
    intro acc h
    rw [filterLoop]
    omega
  | cons m rest ih =>
    intro acc h
    by_cases hskip : (typeFilterSkip mt m.meta || importanceFilterSkip mi m.meta) = true
    · rw [filterLoop, if_pos hskip]
      exact ih acc h
    · rw [filterLoop, if_neg hskip]
      simp only
      by_cases hlen :
          mr ≤ (acc ++
            [(⟨m.id, m.text, m.similarity, bumpAccess m.meta now⟩ : RetrievedMemory)]).length
      · rw [if_pos hlen]
        simp only [List.length_append, List.length_singleton]
        omega
      · rw [if_neg hlen]
        refine ih _ ?_
        simp only [List.length_append, List.length_singleton] at hlen ⊢
        omega

/-- The filter loop emits a subsequence of the candidate list: the
similarity order of the index is preserved. -/
theorem filterLoop_sublist (now : ℚ) (mt : Option String) (mi : Option ℚ) (mr : Nat) :
    ∀ (ms : List SearchResult) (acc : List RetrievedMemory),
      ((filterLoop now mt mi mr ms acc).map rmKey).Sublist
        (acc.map rmKey ++ ms.map srKey) := by
  intro ms
  induction ms with
  | nil =>
    intro acc
    simp [filterLoop]
  | cons m rest ih =>
    intro acc
    by_cases hskip : (typeFilterSkip mt m.meta || importanceFilterSkip mi m.meta) = true
    · rw [filterLoop, if_pos hskip]
      refine (ih acc).trans ?_
      simp only [List.map_cons]
      exact List.Sublist.append_left (List.sublist_cons_self _ _) _
    · rw [filterLoop, if_neg hskip]
      simp only
      by_cases hlen :
          mr ≤ (acc ++
            [(⟨m.id, m.text, m.similarity, bumpAccess m.meta now⟩ : RetrievedMemory)]).length
      · rw [if_pos hlen]
        rw [List.map_append, List.map_cons]
        refine List.Sublist.append_left ?_ _
        exact List.cons_sublist_cons.mpr (List.nil_sublist _)
      · rw [if_neg hlen]
        refine (ih _).trans ?_
        rw [List.map_append, List.append_assoc, List.map_cons]
        exact List.Sublist.refl _

/-- Claim C6: every record `retrieve_memories` returns passes the
client-side post-filters — exact `memory_type` match when a (truthy)
filter is given, importance at least the floor when a (truthy) floor is
given — the output is a subsequence of the index-returned
similarity-ordered candidates, and its length never exceeds the effective
`max_results`. -/
theorem retrieve_post_filters (ranked : List QueryHit) (mt : Option String)
    (mr : Option Nat) (mi : Option ℚ) (now : ℚ) :
    (∀ r ∈ retrieveMemories ranked mt mr mi now,
      (∀ t, mt = some t → t ≠ "" → r.meta.memory_type = t) ∧
      (∀ q, mi = some q → q ≠ 0 → q ≤ r.meta.importance)) ∧
    (retrieveMemories ranked mt mr mi now).length ≤ maxResultsOr mr ∧
    ((retrieveMemories ranked mt mr mi now).map rmKey).Sublist
      ((effectiveSearch ranked (maxResultsOr mr)).map srKey) := by
  refine ⟨?_, ?_, ?_⟩
  · intro r hr
    rw [retrieveMemories_eq] at hr
    rcases filterLoop_mem now mt mi (maxResultsOr mr) _ [] r hr with h | ⟨m, _, hskf, rfl⟩
    · exact absurd h (List.not_mem_nil r)
    · rw [Bool.or_eq_false_iff] at hskf
      constructor
      · intro t ht hne
        subst ht
        have h1 := hskf.1
        simp only [typeFilterSkip] at h1
        rw [if_neg hne] at h1
        by_cases he : m.meta.memory_type = t
        · simpa [bumpAccess] using he
        · rw [if_neg he] at h1
          exact absurd h1 (by simp)
      · intro q hq hqne
        subst hq
        have h2 := hskf.2
        simp only [importanceFilterSkip] at h2
        rw [if_neg hqne] at h2
        by_cases hlt : m.meta.importance < q
        · rw [if_pos hlt] at h2
          exact absurd h2 (by simp)
        · push_neg at hlt
          simpa [bumpAccess] using hlt
  · rw [retrieveMemories_eq]
    refine filterLoop_length now mt mi (maxResultsOr mr) _ [] ?_
    have := one_le_maxResultsOr mr
    simpa using this
  · rw [retrieveMemories_eq]
    simpa using
      filterLoop_sublist now mt mi (maxResultsOr mr)
        (effectiveSearch ranked (maxResultsOr mr)) []

/-- Witness for C6 at a concrete ranked list with a type filter and an
importance floor. -/
theorem retrieve_post_filters_witness :
    (∀ r ∈ retrieveMemories [⟨"m1", "hello", ⟨"fact", 1, 0, 0, 0, "", none, none⟩, 0⟩]
        (some "fact") none (some 1) 5,
      (∀ t, (some "fact" : Option String) = some t → t ≠ "" → r.meta.memory_type = t) ∧
      (∀ q, (some 1 : Option ℚ) = some q → q ≠ 0 → q ≤ r.meta.importance)) ∧
    (retrieveMemories [⟨"m1", "hello", ⟨"fact", 1, 0, 0, 0, "", none, none⟩, 0⟩]
      (some "fact") none (some 1) 5).length ≤ maxResultsOr none ∧
    ((retrieveMemories [⟨"m1", "hello", ⟨"fact", 1, 0, 0, 0, "", none, none⟩, 0⟩]
        (some "fact") none (some 1) 5).map rmKey).Sublist
      ((effectiveSearch [⟨"m1", "hello", ⟨"fact", 1, 0, 0, 0, "", none, none⟩, 0⟩]
        (maxResultsOr none)).map srKey) :=
  retrieve_post_filters [⟨"m1", "hello", ⟨"fact", 1, 0, 0, 0, "", none, none⟩, 0⟩]
    (some "fact") none (some 1) 5

/-- A Python slice bound never exceeds the length. -/
theorem pyIdx_le (n : Nat) (i : Int) : pyIdx n i ≤ n := by
  unfold pyIdx
  split_ifs <;> omega

/-- The length of a Python slice. -/
theorem pySlice_length (l : List Char) (a b : Int) :
    (pySlice l a b).length = pyIdx l.length b - pyIdx l.length a := by
  unfold pySlice
  rw [List.length_drop, List.length_take, Nat.min_eq_left (pyIdx_le _ _)]

/-- A Python slice `l[a:b]` with `a ≤ b` has at most `b - a` characters. -/
theorem pySlice_length_le (l : List Char) (a b : Int) (hab : a ≤ b) :
    ((pySlice l a b).length : Int) ≤ b - a := by
  rw [pySlice_length]
  unfold pyIdx
  split_ifs <;> omega

/-- A Python slice never exceeds the source length. -/
theorem pySlice_length_le_self (l : List Char) (a b : Int) :
    (pySlice l a b).length ≤ l.length := by
  unfold pySlice
  rw [List.length_drop, List.length_take]
  omega

/-- `rfind` stays strictly below the length. -/
theorem pyRFindSpace_lt (l : List Char) : pyRFindSpace l < (l.length : Int) := by
  induction l with
  | nil => norm_num [pyRFindSpace]
  | cons c rest ih =>
    simp only [pyRFindSpace, List.length_cons]
    split_ifs <;> push_cast <;> omega

/-- Dropping a prefix never lengthens a list. -/
theorem length_dropWhile_le {α : Type} (p : α → Bool) (l : List α) :
    (l.dropWhile p).length ≤ l.length := by
  induction l with
  | nil => simp
  | cons a as ih =>
    by_cases h : p a
    · simp only [List.dropWhile_cons, if_pos h, List.length_cons]
      omega
    · simp [List.dropWhile_cons, h]

/-- Stripping never lengthens a chunk. -/
theorem pyStrip_length_le (l : List Char) : (pyStrip l).length ≤ l.length := by
  unfold pyStrip
  rw [List.length_reverse]
  calc ((l.dropWhile isPySpace).reverse.dropWhile isPySpace).length
      ≤ (l.dropWhile isPySpace).reverse.length := length_dropWhile_le _ _
    _ = (l.dropWhile isPySpace).length := List.length_reverse _
    _ ≤ l.length := length_dropWhile_le _ _

/-- Each loop iteration moves `start` to at most `start + cs - ov`: the
word-boundary re-break can only shorten the step. -/
theorem chunkStep_snd_le (text : List Char) (cs ov : Int) (start : Int) (hcs : 0 < cs) :
    (chunkStep text cs ov start).2 ≤ start + cs - ov := by
  have hls := pyRFindSpace_lt (pySlice text start (start + cs))
  have hlen := pySlice_length_le text start (start + cs) (by omega)
  unfold chunkStep
  simp only
  split_ifs <;> simp only <;> omega

/-- Under the amended precondition `5·ov < 4·cs`, each loop iteration
strictly advances `start`: the re-break point lies past 80% of the chunk
while the overlap stays below it. -/
theorem chunkStep_snd_gt (text : List Char) (cs ov : Int) (start : Int)
    (hcs : 0 < cs) (hov : 5 * ov < 4 * cs) :
    start < (chunkStep text cs ov start).2 := by
  unfold chunkStep
  simp only
  split_ifs <;> simp only <;> omega

/-- Every chunk the loop body emits has at most `cs` characters. -/
theorem chunkStep_fst_length (text : List Char) (cs ov : Int) (start : Int)
    (hcs : 0 < cs) : ((chunkStep text cs ov start).1.length : Int) ≤ cs := by
  have h4 := pySlice_length_le text start (start + cs) (by omega)
  have h3 := pySlice_length_le_self (pySlice text start (start + cs)) 0
    (pyRFindSpace (pySlice text start (start + cs)))
  have h5 := pyStrip_length_le (pySlice text start (start + cs))
  have h6 := pyStrip_length_le (pySlice (pySlice text start (start + cs)) 0
    (pyRFindSpace (pySlice text start (start + cs))))
  unfold chunkStep
  simp only
  split_ifs <;> simp only <;> omega

/-- The chunking loop only appends to its accumulator. -/
theorem chunkLoop_extends (text : List Char) (cs ov : Int) :
    ∀ (fuel : Nat) (start : Int) (acc l : List (List Char)),
      chunkLoop text cs ov fuel start acc = some l → ∃ t, l = acc ++ t := by
  intro fuel
  induction fuel with
  | zero =>
    intro start acc l h
    rw [chunkLoop] at h
    by_cases hc : start < (text.length : Int)
    · rw [if_pos hc] at h
      exact absurd h (by simp)
    · rw [if_neg hc] at h
      exact ⟨[], by simpa using (Option.some.inj h).symm⟩
  | succ f ih =>
    intro start acc l h
    rw [chunkLoop] at h
    by_cases hc : start < (text.length : Int)
    · rw [if_pos hc] at h
      obtain ⟨t, ht⟩ := ih _ _ _ h
      exact ⟨(chunkStep text cs ov start).1 :: t, by simpa [List.append_assoc] using ht⟩
    · rw [if_neg hc] at h
      exact ⟨[], by simpa using (Option.some.inj h).symm⟩

/-- With the amended precondition, fuel `text.length - start + 1` is enough
for the loop to run to completion. -/
theorem chunkLoop_some (text : List Char) (cs ov : Int) (hcs : 0 < cs)
    (hov : 5 * ov < 4 * cs) :
    ∀ (fuel : Nat) (start : Int) (acc : List (List Char)),
      (text.length : Int) - start < fuel →
      (chunkLoop text cs ov fuel start acc).isSome := by
  intro fuel
  induction fuel with
  | zero =>
    intro start acc h
    rw [chunkLoop, if_neg (by omega)]
    simp
  | succ f ih =>
    intro start acc h
    rw [chunkLoop]
    by_cases hc : start < (text.length : Int)
    · rw [if_pos hc]
      have hstep := chunkStep_snd_gt text cs ov start hcs hov
      exact ih _ _ (by omega)
    · rw [if_neg hc]
      simp

/-- Every chunk in a completed loop run is at most `cs` characters long,
provided the incoming accumulator already satisfies the bound. -/
theorem chunkLoop_chunks (text : List Char) (cs ov : Int) (hcs : 0 < cs) :
    ∀ (fuel : Nat) (start : Int) (acc l : List (List Char)),
      (∀ c ∈ acc, (c.length : Int) ≤ cs) →
      chunkLoop text cs ov fuel start acc = some l →
      ∀ c ∈ l, (c.length : Int) ≤ cs := by
  intro fuel
  induction fuel with
  | zero =>
    intro start acc l hacc h
    rw [chunkLoop] at h
    by_cases hc : start < (text.length : Int)
    · rw [if_pos hc] at h
      exact absurd h (by simp)
    · rw [if_neg hc] at h
      obtain rfl := Option.some.inj h
      exact hacc
  | succ f ih =>
    intro start acc l hacc h
    rw [chunkLoop] at h
    by_cases hc : start < (text.length : Int)
    · rw [if_pos hc] at h
      refine ih _ _ _ ?_ h
      intro c hcmem
      rcases List.mem_append.mp hcmem with h' | h'
      · exact hacc c h'
      · have : c = (chunkStep text cs ov start).1 := by simpa using h'
        exact this ▸ chunkStep_fst_length text cs ov start hcs
    · rw [if_neg hc] at h
      obtain rfl := Option.some.inj h
      exact hacc

/-- Helper for the C10 counterexample: on a 25-character space-free text
with `chunk_size = 10` and the defaulted overlap 200, `start` only ever
moves backwards, so the loop exhausts any fuel. -/
theorem chunkLoop_diverges_cex :
    ∀ (fuel : Nat) (start : Int) (acc : List (List Char)), start ≤ 0 →
      chunkLoop (List.replicate 25 'a') 10 200 fuel start acc = none := by
  intro fuel
  induction fuel with
  | zero =>
    intro start acc h
    rw [chunkLoop, if_pos (by simp; omega)]
  | succ f ih =>
    intro start acc h
    rw [chunkLoop, if_pos (by simp; omega)]
    have hstep := chunkStep_snd_le (List.replicate 25 'a') 10 200 start (by norm_num)
    exact ih _ _ (by omega)

/-- Counterexample to claim C10 as stated: the parameters
`chunk_size = 10`, `overlap = 0` satisfy the claim's precondition
`0 ≤ overlap < 0.8 × chunk_size`, but `overlap or Config.CHUNK_OVERLAP`
replaces the falsy 0 by 200, so on a 25-character space-free text the loop
steps `start` by `10 - 200 < 0` each iteration and never terminates. -/
theorem chunk_text_zero_overlap_diverges : chunkTextDiverges (List.replicate 25 'a') 10 0 := by
  intro fuel
  unfold chunk_text
  norm_num
  exact chunkLoop_diverges_cex fuel 0 [] le_rfl

/-- Amended claim C10: for every text and parameters `chunk_size > 0` and
`0 < overlap < 0.8 × chunk_size` (strictly positive, so the falsy-zero
defaulting does not fire; the configured defaults 1000 and 200 satisfy
this), `chunk_text` terminates within `text.length + 1` loop iterations,
returns a non-empty list, every chunk has length at most `chunk_size`, and
the loop's start index strictly increases on each iteration. -/
theorem chunk_text_safe (text : List Char) (cs ov : Int)
    (hcs : 0 < cs) (hov0 : 0 < ov) (hov : 5 * ov < 4 * cs) :
    ∃ l, chunk_text (text.length + 1) text cs ov = some l ∧ l ≠ [] ∧
      (∀ c ∈ l, (c.length : Int) ≤ cs) ∧
      ∀ start : Int, start < (chunkStep text cs ov start).2 := by
  unfold chunk_text
  rw [show (if cs = 0 then CHUNK_SIZE else cs) = cs from if_neg (by omega),
    show (if ov = 0 then CHUNK_OVERLAP else ov) = ov from if_neg (by omega)]
  by_cases hlen : (text.length : Int) ≤ cs
  · rw [if_pos hlen]
    refine ⟨[text], rfl, by simp, ?_, fun s => chunkStep_snd_gt text cs ov s hcs hov⟩
    intro c hcmem
    have : c = text := by simpa using hcmem
    exact this ▸ hlen
  · rw [if_neg hlen]
    have hsome := chunkLoop_some text cs ov hcs hov (text.length + 1) 0 [] (by push_cast; omega)
    obtain ⟨l, hl⟩ := Option.isSome_iff_exists.mp hsome
    refine ⟨l, hl, ?_, chunkLoop_chunks text cs ov hcs _ _ _ _ (by simp) hl,
      fun s => chunkStep_snd_gt text cs ov s hcs hov⟩
    rw [chunkLoop, if_pos (by omega)] at hl
    obtain ⟨t, ht⟩ := chunkLoop_extends text cs ov _ _ _ _ hl
    subst ht
    simp

/-- Witness for the amended C10: a 25-character text chunked with
`chunk_size = 10`, `overlap = 3`. -/
theorem chunk_text_safe_witness :
    ∃ l, chunk_text ((List.replicate 25 'a').length + 1) (List.replicate 25 'a') 10 3
        = some l ∧ l ≠ [] ∧
      (∀ c ∈ l, (c.length : Int) ≤ 10) ∧
      ∀ start : Int, start < (chunkStep (List.replicate 25 'a') 10 3 start).2 :=
  chunk_text_safe (List.replicate 25 'a') 10 3 (by norm_num) (by norm_num) (by norm_num)

end MemoryGraph
